import Mathlib

/-!
# The LLVM assembler (`llvm-as`) and modular optimizer (`opt`) drivers

A shallow embedding of `tools/llvm-as/llvm-as.cpp` and `tools/opt/opt.cpp`.

* Command-line options become fields of `AsConfig` / `OptConfig`, carrying the
  names of the `cl::opt` globals.
* Everything the drivers reach through a library call (the assembly parser, the
  bytecode reader, the file system, the semantics of the passes) is collected
  in `Env`.
* Observable effects are recorded, in program order, as a list of `Event`s.
* The pass manager is the list of the stages handed to `Passes.add`, in the
  order of the calls.
* A `std::string` is a Lean `String`, one `char` for each character.
-/

namespace LLVMTools

/-! ## The program representation -/

/-- A basic block: its name and its instructions. -/
structure BasicBlock where
  Name : String
  Insts : List String
  deriving DecidableEq, Repr

/-- A function: its name and its basic blocks. -/
structure Function where
  Name : String
  Blocks : List BasicBlock
  deriving DecidableEq, Repr

/-- A module: its functions. -/
structure Module where
  Functions : List Function
  deriving DecidableEq, Repr

/-! ## Streams and observable effects -/

/-- The value of `std::ostream *Out`: null, `&std::cout`, or a
`new std::ofstream` opened on a path. -/
inductive OutStream where
  | null
  | cout
  | ofstream (path : String)
  deriving DecidableEq, Repr

/-- The effects of a run that can be observed from outside the process. -/
inductive Event where
  /-- Text written to `llvm_cerr`. -/
  | cerr (text : String)
  /-- Text written to `llvm_cout`. -/
  | cout (text : String)
  /-- The call `new std::ofstream(path, out | trunc | binary)`: the file is
  created, or truncated when it exists. -/
  | openTrunc (path : String)
  /-- The call `sys::RemoveFileOnSignal(sys::Path(path))`. -/
  | RemoveFileOnSignal (path : String)
  /-- The bytecode of a module written to a stream. -/
  | WriteBytecode (out : OutStream) (M : Module) (compress : Bool)
  /-- The call `getAnalysisID<Pass>(PassToPrint)` for the pass of that name. -/
  | getAnalysisID (passName : String)
  /-- The call `.print(llvm_cout, M)` on the analysis of that name: its result
  is written to `llvm_cout`. -/
  | printAnalysis (passName : String) (M : Module)
  deriving DecidableEq, Repr

/-- Whether an event is the writing of bytecode. -/
def Event.isWriteBytecode : Event → Bool
  | Event.WriteBytecode _ _ _ => true
  | _ => false

/-- Whether an event is the creation or truncation of a file. -/
def Event.isOpenTrunc : Event → Bool
  | Event.openTrunc _ => true
  | _ => false

/-- How a run of `main` ends. -/
inductive Status where
  /-- The value returned from `main`. -/
  | exit (code : Nat)
  /-- The process is aborted: a failed `assert`, or `abort()` in the verifier
  pass. -/
  | abort (why : String)
  /-- The behaviour of the run is undefined (an access outside an object, or
  the use of an object after the end of its lifetime). -/
  | undefined
  deriving DecidableEq, Repr

/-- The outcome of a run: how it ended and what it did, in order. -/
structure Result where
  status : Status
  events : List Event
  deriving DecidableEq, Repr

/-! ## `llvm-as`: the default output file name -/

/-- The conversion `int Len = IFN.length()` of a `size_t` to a 32-bit `int`. -/
def toInt (n : Nat) : Int :=
  if n % 2 ^ 32 < 2 ^ 31 then (n % 2 ^ 32 : Nat) else (n % 2 ^ 32 : Nat) - 2 ^ 32

/-- The access `IFN[i]` with an `int` index: the index is converted to the
unsigned `size_type`, and an access outside the string has no defined value. -/
def charAt (IFN : String) (i : Int) : Option Char :=
  IFN.data[(i % 2 ^ 64).toNat]?

/-- The test `IFN[Len-3] == '.' && IFN[Len-2] == 'l' && IFN[Len-1] == 'l'`,
evaluated from left to right, the right operand of `&&` only when the left one
holds. -/
def endsInLL (IFN : String) (Len : Int) : Option Bool :=
  match charAt IFN (Len - 3) with
  | none => none
  | some c3 =>
    if c3 ≠ '.' then some false
    else match charAt IFN (Len - 2) with
      | none => none
      | some c2 =>
        if c2 ≠ 'l' then some false
        else match charAt IFN (Len - 1) with
          | none => none
          | some c1 => some (c1 == 'l')

/-- The `else` branch of `InputFilename == "-"` in `llvm-as`, up to
`OutputFilename += ".bc"`: the output file name derived from the input file
name. `none` when the derivation reads outside the string. -/
def defaultOutputFilename (InputFilename : String) : Option String :=
  let IFN := InputFilename
  let Len := toInt IFN.length
  match endsInLL IFN Len with
  | none => none
  | some true =>
    -- Source ends in .ll: std::string(IFN.begin(), IFN.end()-3)
    some (String.mk (IFN.data.take (IFN.data.length - 3)) ++ ".bc")
  | some false =>
    some (IFN ++ ".bc")

/-! ## The environment of a run -/

/-- An exception that reaches the handlers of `main`: a `std::string`, caught
by `catch (const std::string& msg)`, or anything else, caught by
`catch (...)`. -/
inductive Exception where
  | string (msg : String)
  | other
  deriving DecidableEq, Repr

/-- What a call of `ParseAssemblyFile` or `ParseBytecodeFile` does: it returns
a module, or returns null leaving an error message, or throws. -/
inductive ParseOutcome where
  | module (M : Module)
  | null (message : String)
  | threw (ex : Exception)
  deriving DecidableEq, Repr

/-- A constructed pass, as far as the drivers look at it: which of
`dynamic_cast<BasicBlockPass*>(P)` and `dynamic_cast<FunctionPass*>(P)`
succeed. What the pass does to a module belongs to `Env`. -/
structure Pass where
  ID : String
  isBasicBlockPass : Bool
  isFunctionPass : Bool
  deriving DecidableEq, Repr

/-- A target machine description. -/
structure TargetMachine where
  Name : String
  deriving DecidableEq, Repr

/-- A registered pass (`PassInfo`): `getPassName()`, `getNormalCtor()` and
`getTargetCtor()`; a constructor that is null is `none`, and a constructor
that is called returns a new pass, never null. -/
structure PassInfo where
  PassName : String
  NormalCtor : Option (Unit → Pass)
  TargetCtor : Option (TargetMachine → Pass)

/-- The library calls of the two drivers. -/
structure Env where
  /-- The call `ParseAssemblyFile(InputFilename, &Err)`. -/
  ParseAssemblyFile : String → ParseOutcome
  /-- The call `ParseBytecodeFile(InputFilename, &ErrorMessage)`. -/
  ParseBytecodeFile : String → ParseOutcome
  /-- The verifier: `some Err` when the module is broken (`verifyModule`
  returns true), `none` when it is well formed. -/
  verifyModule : Module → Option String
  /-- The text of a module, as written by `operator<<` and `PrintModulePass`. -/
  printModule : Module → String
  /-- Whether a file of that path is on the disk. -/
  fileExists : String → Bool
  /-- Whether `std::ifstream(path)` converts to true: the file can be opened
  for reading. A file that is on the disk and gives no read permission cannot. -/
  ifstream : String → Bool
  /-- The value of `Out->good()`. -/
  good : OutStream → Bool
  /-- Whether a stream is attached to a terminal. -/
  isConsole : OutStream → Bool
  /-- The warning about bytecode on a terminal. -/
  consoleWarning : String
  /-- The bytecode writer: `some ex` when it throws, `none` when it completes. -/
  WriteBytecodeToFile : Module → OutStream → Bool → Option Exception
  /-- What running a pass over the whole module does: the module it leaves, or
  the exception that escapes from it. -/
  runPass : Pass → Module → Except Exception Module

/-- Modelled from the spec: `CheckBytecodeOutputToConsole` is declared in
`llvm/Support/SystemUtils.h` and its body is not part of the sources. Rule B of
the output gate: the answer is true when the destination stream is interactive
(terminal-attached), and then a warning goes to the error stream when the
caller asks for one. -/
def CheckBytecodeOutputToConsole (e : Env) (stream_to_check : OutStream)
    (print_warning : Bool) : Bool × List Event :=
  if e.isConsole stream_to_check then
    (true, if print_warning then [Event.cerr e.consoleWarning] else [])
  else
    (false, [])

/-! ## `llvm-as` -/

/-- The command line of `llvm-as`. `InputFilename` is `"-"` and
`OutputFilename` is `""` when they are not given. -/
structure AsConfig where
  argv0 : String
  InputFilename : String
  OutputFilename : String
  Force : Bool
  DumpAsm : Bool
  NoCompress : Bool
  DisableVerify : Bool

/-- The two `catch` handlers of `llvm-as`: a diagnostic, `exitCode = 1`, and
`return exitCode`. -/
def asCatch (c : AsConfig) (events : List Event) : Exception → Result
  | Exception.string msg =>
    ⟨Status.exit 1, events ++ [Event.cerr (c.argv0 ++ ": " ++ msg ++ "\n")]⟩
  | Exception.other =>
    ⟨Status.exit 1,
      events ++ [Event.cerr (c.argv0 ++ ": Unexpected unknown exception occurred.\n")]⟩

/-- The diagnostic of both drivers for an output file that exists. -/
def fileExistsMessage (argv0 OutputFilename : String) : String :=
  argv0 ++ ": error opening \x27" ++ OutputFilename ++ "\x27: file exists!\n"
    ++ "Use -f command line argument to force output\n"

/-- How the choice of the output stream of `llvm-as` ends. -/
inductive AsOutput where
  /-- The branch `return 1` for a file that exists, with the file name. -/
  | fileExists (OutputFilename : String)
  /-- The derivation of the default name read outside the input name. -/
  | undefined
  /-- The stream `Out`, the final `OutputFilename`, and the effects. -/
  | stream (Out : OutStream) (OutputFilename : String) (events : List Event)
  deriving DecidableEq, Repr

/-- The statement `if (OutputFilename != "") ... else ...` of `llvm-as`
(lines 79-123): the choice of the output stream. -/
def asOpenOutput (c : AsConfig) (e : Env) : AsOutput :=
  if c.OutputFilename ≠ "" then          -- Specified an output filename?
    if c.OutputFilename ≠ "-" then       -- Not stdout?
      if !c.Force && e.ifstream c.OutputFilename then
        AsOutput.fileExists c.OutputFilename
      else
        AsOutput.stream (OutStream.ofstream c.OutputFilename) c.OutputFilename
          [Event.openTrunc c.OutputFilename]
    else                                 -- Specified stdout
      AsOutput.stream OutStream.cout c.OutputFilename []
  else
    if c.InputFilename = "-" then
      AsOutput.stream OutStream.cout "-" []
    else
      match defaultOutputFilename c.InputFilename with
      | none => AsOutput.undefined
      | some OutputFilename =>
        if !c.Force && e.ifstream OutputFilename then
          AsOutput.fileExists OutputFilename
        else
          AsOutput.stream (OutStream.ofstream OutputFilename) OutputFilename
            [Event.openTrunc OutputFilename, Event.RemoveFileOnSignal OutputFilename]

/-- The on-disk destination of `llvm-as`: the path given with `-o` when it is
not `"-"`, or the path derived from an input path that is not `"-"`; `none`
when the destination is standard output or the derivation is undefined. -/
def asOutputPath (a : AsConfig) : Option String :=
  if a.OutputFilename ≠ "" then
    if a.OutputFilename ≠ "-" then some a.OutputFilename else none
  else if a.InputFilename = "-" then none
  else defaultOutputFilename a.InputFilename

/-- The last statement of the `try` block of `llvm-as` (lines 130-133): the
bytecode is written when `Force` is set or the console check answers false;
`main` then returns `exitCode`, which is 0 unless the writer threw. -/
def asWrite (c : AsConfig) (e : Env) (M : Module) (Out : OutStream)
    (events : List Event) : Result :=
  let check : Bool × List Event :=
    if c.Force then (false, []) else CheckBytecodeOutputToConsole e Out true
  if c.Force || !check.1 then
    match e.WriteBytecodeToFile M Out (!c.NoCompress) with
    | some ex => asCatch c (events ++ check.2) ex
    | none =>
      ⟨Status.exit 0, events ++ check.2 ++ [Event.WriteBytecode Out M (!c.NoCompress)]⟩
  else
    ⟨Status.exit 0, events ++ check.2⟩

/-- The function `main` of `llvm-as`. -/
def asMain (c : AsConfig) (e : Env) : Result :=
  -- Parse the file now...
  match e.ParseAssemblyFile c.InputFilename with
  | ParseOutcome.threw ex => asCatch c [] ex
  | ParseOutcome.null message =>
    ⟨Status.exit 1, [Event.cerr (c.argv0 ++ ": " ++ message ++ "\n")]⟩
  | ParseOutcome.module M =>
    match (if !c.DisableVerify then e.verifyModule M else none) with
    | some Err =>
      ⟨Status.exit 1,
        [Event.cerr (c.argv0 ++ ": assembly parsed, but does not verify as correct!\n"),
         Event.cerr Err]⟩
    | none =>
      let dump : List Event :=
        if c.DumpAsm then [Event.cerr ("Here\x27s the assembly:\n" ++ e.printModule M)]
        else []
      match asOpenOutput c e with
      | AsOutput.fileExists OutputFilename =>
        ⟨Status.exit 1, dump ++ [Event.cerr (fileExistsMessage c.argv0 OutputFilename)]⟩
      | AsOutput.undefined => ⟨Status.undefined, dump⟩
      | AsOutput.stream Out OutputFilename opened =>
        if !e.good Out then
          ⟨Status.exit 1,
            dump ++ opened ++ [Event.cerr (c.argv0 ++ ": error opening " ++ OutputFilename ++ "!\n")]⟩
        else
          asWrite c e M Out (dump ++ opened)

/-! ## `opt`: the analysis printers -/

/-- The command line of `opt`. `InputFilename` and `OutputFilename` are `"-"`
when they are not given; `PassList` holds the selected passes in the order of
the command line. -/
structure OptConfig where
  argv0 : String
  PassList : List PassInfo
  NoCompress : Bool
  InputFilename : String
  OutputFilename : String
  Force : Bool
  PrintEachXForm : Bool
  NoOutput : Bool
  NoVerify : Bool
  Quiet : Bool
  AnalyzeOnly : Bool

/-- The method `ModulePassPrinter::runOnModule`: the value returned and the
effects. The header, the lookup of the analysis and the printing of its result
are all inside `if (!Quiet)`. -/
def ModulePassPrinter.runOnModule (Quiet : Bool) (PassToPrint : PassInfo)
    (M : Module) : Bool × List Event :=
  (false,
    if !Quiet then
      [Event.cout ("Printing analysis \x27" ++ PassToPrint.PassName ++ "\x27:\n"),
       Event.getAnalysisID PassToPrint.PassName,
       Event.printAnalysis PassToPrint.PassName M]
    else [])

/-- The method `FunctionPassPrinter::runOnFunction`, for a function `F` of the
module `M` (`F.getParent()`): only the header is inside `if (!Quiet)`. -/
def FunctionPassPrinter.runOnFunction (Quiet : Bool) (PassToPrint : PassInfo)
    (M : Module) (F : Function) : Bool × List Event :=
  (false,
    (if !Quiet then
      [Event.cout ("Printing analysis \x27" ++ PassToPrint.PassName
        ++ "\x27 for function \x27" ++ F.Name ++ "\x27:\n")]
    else [])
    -- Get and print pass...
    ++ [Event.getAnalysisID PassToPrint.PassName,
        Event.printAnalysis PassToPrint.PassName M])

/-- The method `BasicBlockPassPrinter::runOnBasicBlock`, for a block `BB` of a
function of the module `M` (`BB.getParent()->getParent()`): only the header is
inside `if (!Quiet)`. -/
def BasicBlockPassPrinter.runOnBasicBlock (Quiet : Bool) (PassToPrint : PassInfo)
    (M : Module) (BB : BasicBlock) : Bool × List Event :=
  (false,
    (if !Quiet then
      [Event.cout ("Printing Analysis info for BasicBlock \x27" ++ BB.Name
        ++ "\x27: Pass " ++ PassToPrint.PassName ++ ":\n")]
    else [])
    -- Get and print pass...
    ++ [Event.getAnalysisID PassToPrint.PassName,
        Event.printAnalysis PassToPrint.PassName M])

/-! ## `opt`: building the pipeline -/

/-- What `Passes.add` is called with. -/
inductive Stage where
  /-- The stage `new TargetData(M.get())`. -/
  | TargetData
  /-- A pass `P` made by a constructor of a selected `PassInfo`. -/
  | pass (P : Pass)
  | BasicBlockPassPrinter (PassToPrint : PassInfo)
  | FunctionPassPrinter (PassToPrint : PassInfo)
  | ModulePassPrinter (PassToPrint : PassInfo)
  /-- The stage `new PrintModulePass(&llvm_cerr)`. -/
  | PrintModulePass
  /-- The stage `createVerifierPass()`. -/
  | VerifierPass
  /-- The stage `new WriteBytecodePass(&L, Out != &std::cout, !NoCompress)`,
  where `L` is the `llvm_ostream` on `*Out` that is local to the block of the
  call: `Out` is the stream on which `L` was made, and `L` itself is destroyed
  at the end of the block, before `Passes.run`. -/
  | WriteBytecodePass (Out : OutStream) (DeleteStream : Bool) (CompressFile : Bool)

/-- The pass of a stage that holds a constructed user pass. -/
def Stage.pass? : Stage → Option Pass
  | Stage.pass P => some P
  | _ => none

/-- Whether a stage is a printer of one of the three granularities. -/
def Stage.isPrinter : Stage → Bool
  | Stage.BasicBlockPassPrinter _ => true
  | Stage.FunctionPassPrinter _ => true
  | Stage.ModulePassPrinter _ => true
  | _ => false

/-- Whether a stage is a module dump. -/
def Stage.isPrintModule : Stage → Bool
  | Stage.PrintModulePass => true
  | _ => false

/-- Whether a stage was added inside the loop over `PassList`: a constructed
pass, a printer, or a module dump. -/
def Stage.fromSelection (s : Stage) : Bool :=
  s.pass?.isSome || s.isPrinter || s.isPrintModule

/-- Whether a stage is the verifier stage. -/
def Stage.isVerifier : Stage → Bool
  | Stage.VerifierPass => true
  | _ => false

/-- Whether a stage is the bytecode writer. -/
def Stage.isWriter : Stage → Bool
  | Stage.WriteBytecodePass _ _ _ => true
  | _ => false

/-- The first statement of the loop body (lines 224-232): the pass `P`, null
when no constructor is available, with the diagnostic of that case. The target
constructor is reached through `assert(target.get() && ...)`. -/
def createPass (argv0 : String) (target : Option TargetMachine) (PassInf : PassInfo) :
    Except String (Option Pass × List Event) :=
  match PassInf.NormalCtor with
  | some ctor => Except.ok (some (ctor ()), [])
  | none =>
    match PassInf.TargetCtor with
    | some ctor =>
      match target with
      | none => Except.error "Could not allocate target machine!"
      | some tm => Except.ok (some (ctor tm), [])
    | none =>
      Except.ok (none,
        [Event.cerr (argv0 ++ ": cannot create pass: " ++ PassInf.PassName ++ "\n")])

/-- The printer added for a pass in analysis mode (lines 237-242): the
`dynamic_cast`s are tried in this order. -/
def printerFor (P : Pass) (PassInf : PassInfo) : Stage :=
  if P.isBasicBlockPass then Stage.BasicBlockPassPrinter PassInf
  else if P.isFunctionPass then Stage.FunctionPassPrinter PassInf
  else Stage.ModulePassPrinter PassInf

/-- The second half of the loop body (lines 233-247), for the pass `P` of the
first half: the stages added to `Passes`. -/
def addStages (c : OptConfig) (P : Option Pass) (PassInf : PassInfo) : List Stage :=
  (match P with
    | some P => Stage.pass P :: (if c.AnalyzeOnly then [printerFor P PassInf] else [])
    | none => [])
  ++ (if c.PrintEachXForm then [Stage.PrintModulePass] else [])

/-- One iteration of the loop over `PassList` (lines 223-247): the stages it
adds and the diagnostics it writes. -/
def addPass (c : OptConfig) (target : Option TargetMachine) (PassInf : PassInfo) :
    Except String (List Stage × List Event) :=
  match createPass c.argv0 target PassInf with
  | Except.error why => Except.error why
  | Except.ok (P, events) => Except.ok (addStages c P PassInf, events)

/-- A failed `assert`: its message and the effects before it. -/
structure Abort where
  why : String
  events : List Event
  deriving DecidableEq, Repr

/-- The loop `for (unsigned i = 0; i < PassList.size(); ++i)` (lines 222-248),
from the pass manager `Passes` and the effects so far. -/
def addPasses (c : OptConfig) (target : Option TargetMachine) :
    List PassInfo → List Stage → List Event → Except Abort (List Stage × List Event)
  | [], Passes, events => Except.ok (Passes, events)
  | PassInf :: rest, Passes, events =>
    match addPass c target PassInf with
    | Except.error why => Except.error ⟨why, events⟩
    | Except.ok (added, diags) => addPasses c target rest (Passes ++ added) (events ++ diags)

/-- The construction of the pass manager (lines 216-258): the target data, the
selected passes, the verifier, the bytecode writer. `NoOutput` is the value of
the option after the console check. The writer is made on `&L`, with `L` a
local `llvm_ostream` on `*Out` that does not outlive the block. -/
def buildPasses (c : OptConfig) (target : Option TargetMachine) (NoOutput : Bool)
    (Out : OutStream) : Except Abort (List Stage × List Event) :=
  match addPasses c target c.PassList [Stage.TargetData] [] with
  | Except.error a => Except.error a
  | Except.ok (Passes, events) =>
    -- Check that the module is well formed on completion of optimization
    let Passes := if !c.NoVerify then Passes ++ [Stage.VerifierPass] else Passes
    -- Write bytecode out to disk or cout as the last step...
    let Passes :=
      if !NoOutput && !c.AnalyzeOnly then
        Passes ++ [Stage.WriteBytecodePass Out (Out ≠ OutStream.cout) (!c.NoCompress)]
      else Passes
    Except.ok (Passes, events)

/-- The stages that the loop adds for a list of selections when no target
constructor is called: for each selection in turn, the stages of `addStages`
for the instance of its context-free constructor, if it has one. -/
def selectedStages (c : OptConfig) (l : List PassInfo) : List Stage :=
  (l.map (fun PassInf =>
    addStages c (PassInf.NormalCtor.map (fun ctor => ctor ())) PassInf)).flatten

/-! ## `opt`: running the pipeline -/

/-- How a run of the pipeline is cut short: an exception escapes from a stage,
or the process is aborted, or a stage does something that has no defined
behaviour. -/
inductive Stop where
  | threw (ex : Exception)
  | abort (why : String)
  | undefined
  deriving DecidableEq, Repr

/-- The state of a run of the pipeline: the module, the effects so far, and
whether the run was cut short. -/
structure RunState where
  M : Module
  events : List Event
  stop : Option Stop
  deriving DecidableEq, Repr

/-- Modelled from the spec: the pass manager is not part of the sources. One
stage executed over the module (sections 4.2 and 4.6 of the spec): a user pass
does what `Env.runPass` says; the module printer runs once, the function
printer once per function, the basic-block printer once per block; the dump
stage writes the module to the error stream; the verifier stage aborts on a
broken module. The writer stage was given `&L`, the address of a local of
`main` that is destroyed before `Passes.run` (lines 255-258): when the stage
runs, its use of that stream has no defined behaviour. -/
def runStage (c : OptConfig) (e : Env) (M : Module) : Stage → RunState
  | Stage.TargetData => ⟨M, [], none⟩
  | Stage.pass P =>
    match e.runPass P M with
    | Except.ok M1 => ⟨M1, [], none⟩
    | Except.error ex => ⟨M, [], some (Stop.threw ex)⟩
  | Stage.ModulePassPrinter PassToPrint =>
    ⟨M, (ModulePassPrinter.runOnModule c.Quiet PassToPrint M).2, none⟩
  | Stage.FunctionPassPrinter PassToPrint =>
    ⟨M, (M.Functions.map
      (fun F => (FunctionPassPrinter.runOnFunction c.Quiet PassToPrint M F).2)).flatten, none⟩
  | Stage.BasicBlockPassPrinter PassToPrint =>
    ⟨M, (M.Functions.map (fun F => (F.Blocks.map
      (fun BB => (BasicBlockPassPrinter.runOnBasicBlock c.Quiet PassToPrint M BB).2)).flatten)).flatten,
      none⟩
  | Stage.PrintModulePass => ⟨M, [Event.cerr (e.printModule M)], none⟩
  | Stage.VerifierPass =>
    match e.verifyModule M with
    | some Err => ⟨M, [Event.cerr Err], some (Stop.abort "Broken module found")⟩
    | none => ⟨M, [], none⟩
  | Stage.WriteBytecodePass _ _ _ => ⟨M, [], some Stop.undefined⟩

/-- Modelled from the spec: the pass manager is not part of the sources. The
call `Passes.run(*M.get())` (section 4.6 of the spec): the stages are executed
once each, in the order in which they were added, until one of them cuts the
run short. -/
def PassManager.run (c : OptConfig) (e : Env) : List Stage → RunState → RunState
  | [], st => st
  | s :: rest, st =>
    match st.stop with
    | some _ => st
    | none =>
      let r := runStage c e st.M s
      PassManager.run c e rest ⟨r.M, st.events ++ r.events, r.stop⟩

/-! ## `opt`: `main` -/

/-- The two `catch` handlers of `opt`, followed by `return 1`. -/
def optCatch (c : OptConfig) (events : List Event) : Exception → Result
  | Exception.string msg =>
    ⟨Status.exit 1, events ++ [Event.cerr (c.argv0 ++ ": " ++ msg ++ "\n")]⟩
  | Exception.other =>
    ⟨Status.exit 1,
      events ++ [Event.cerr (c.argv0 ++ ": Unexpected unknown exception occurred.\n")]⟩

/-- The choice of the output stream of `opt` (lines 183-204): the stream `Out`
and the effects, or the outcome of the `return 1` taken. -/
def optOpenOutput (c : OptConfig) (e : Env) : Except Result (OutStream × List Event) :=
  if c.OutputFilename ≠ "-" then
    if !c.Force && e.ifstream c.OutputFilename then
      -- If force is not specified, make sure not to overwrite a file!
      Except.error ⟨Status.exit 1, [Event.cerr (fileExistsMessage c.argv0 c.OutputFilename)]⟩
    else
      let Out := OutStream.ofstream c.OutputFilename
      if !e.good Out then
        Except.error ⟨Status.exit 1,
          [Event.openTrunc c.OutputFilename,
           Event.cerr (c.argv0 ++ ": error opening " ++ c.OutputFilename ++ "!\n")]⟩
      else
        Except.ok (Out,
          [Event.openTrunc c.OutputFilename, Event.RemoveFileOnSignal c.OutputFilename])
  else
    Except.ok (OutStream.cout, [])   -- Default to printing to stdout...

/-- The console check of `opt` (lines 209-211): the value of `NoOutput` after
it, and the effects. The check is called only when `!Force && !NoOutput`. -/
def optGate (c : OptConfig) (e : Env) (Out : OutStream) : Bool × List Event :=
  if !c.Force && !c.NoOutput then
    let check := CheckBytecodeOutputToConsole e Out (!c.Quiet)
    (if check.1 then true else c.NoOutput, check.2)
  else
    (c.NoOutput, [])

/-- A run of `opt`: its outcome, the pass manager handed to `Passes.run` when
`main` gets that far, and the module when `main` ends, when it was loaded. -/
structure OptRun where
  result : Result
  Passes : Option (List Stage)
  M : Option Module

/-- The function `main` of `opt`. -/
def optMain (c : OptConfig) (e : Env) : OptRun :=
  -- Allocate a full target machine description only if necessary.
  let target : Option TargetMachine := none
  -- Load the input module...
  match e.ParseBytecodeFile c.InputFilename with
  | ParseOutcome.threw ex => ⟨optCatch c [] ex, none, none⟩
  | ParseOutcome.null ErrorMessage =>
    ⟨⟨Status.exit 1,
      [Event.cerr (c.argv0 ++ ": " ++
        (if ErrorMessage.length ≠ 0 then ErrorMessage ++ "\n"
         else "bytecode didn\x27t read correctly.\n"))]⟩, none, none⟩
  | ParseOutcome.module M =>
    -- Figure out what stream we are supposed to write to...
    match optOpenOutput c e with
    | Except.error r => ⟨r, none, some M⟩
    | Except.ok (Out, opened) =>
      let gate := optGate c e Out
      match buildPasses c target gate.1 Out with
      | Except.error a => ⟨⟨Status.abort a.why, opened ++ gate.2 ++ a.events⟩, none, some M⟩
      | Except.ok (Passes, diags) =>
        -- Now that we have all of the passes ready, run them.
        let r := PassManager.run c e Passes ⟨M, opened ++ gate.2 ++ diags, none⟩
        match r.stop with
        | none => ⟨⟨Status.exit 0, r.events⟩, some Passes, some r.M⟩
        | some (Stop.threw ex) => ⟨optCatch c r.events ex, some Passes, some r.M⟩
        | some (Stop.abort why) => ⟨⟨Status.abort why, r.events⟩, some Passes, some r.M⟩
        | some Stop.undefined => ⟨⟨Status.undefined, r.events⟩, some Passes, some r.M⟩

/-! ## Sample inputs -/

/-- A module with one function of one block. -/
def sampleModule : Module :=
  ⟨[⟨"main", [⟨"entry", ["ret void"]⟩]⟩]⟩

/-- A pass that empties the module. -/
def stripPass : Pass := ⟨"strip", false, false⟩

/-- An environment in which every file parses to `sampleModule`, every module
verifies, the files on the disk are `old.bc`, which can be read, and
`locked.bc`, which can be written and not read, every stream opens, standard
output is a terminal, the writer never throws, and only `stripPass` changes
the module. -/
def sampleEnv : Env where
  ParseAssemblyFile := fun _ => ParseOutcome.module sampleModule
  ParseBytecodeFile := fun _ => ParseOutcome.module sampleModule
  verifyModule := fun _ => none
  printModule := fun _ => "; module\n"
  fileExists := fun path => path = "old.bc" ∨ path = "locked.bc"
  ifstream := fun path => path = "old.bc"
  good := fun _ => true
  isConsole := fun Out => Out = OutStream.cout
  consoleWarning := "WARNING: bytecode output to a terminal\n"
  WriteBytecodeToFile := fun _ _ _ => none
  runPass := fun P M => if P = stripPass then Except.ok ⟨[]⟩ else Except.ok M

/-- A transformation with a context-free constructor. -/
def stripInfo : PassInfo := ⟨"Strip the module", some (fun _ => stripPass), none⟩

/-- A function analysis with a context-free constructor. -/
def domInfo : PassInfo :=
  ⟨"Dominator Set Construction", some (fun _ => ⟨"domset", false, true⟩), none⟩

/-- A registered pass with neither constructor. -/
def bareInfo : PassInfo := ⟨"No constructor", none, none⟩

/-- A registered pass with a target constructor only. -/
def lowerInfo : PassInfo :=
  ⟨"Target lowering", none, some (fun tm => ⟨"lower-" ++ tm.Name, false, true⟩)⟩

/-- The command line `opt <passes> -o <output>`, with `-analyze` when
`AnalyzeOnly` is set, reading standard input. -/
def optCommand (PassList : List PassInfo) (OutputFilename : String) (AnalyzeOnly : Bool) :
    OptConfig :=
  ⟨"opt", PassList, false, "-", OutputFilename, false, false, false, false, false, AnalyzeOnly⟩

/-- The command line `opt -p <passes>`, with `-analyze` when `AnalyzeOnly` is
set, from standard input to standard output. -/
def optPrintCommand (PassList : List PassInfo) (AnalyzeOnly : Bool) : OptConfig :=
  ⟨"opt", PassList, false, "-", "-", false, true, false, false, false, AnalyzeOnly⟩

/-- The command line `llvm-as <input> -o <output>`; `""` for no `-o`. -/
def asCommand (InputFilename OutputFilename : String) : AsConfig :=
  ⟨"llvm-as", InputFilename, OutputFilename, false, false, false, false⟩

/-! ## Theorems: the default output file name -/

theorem toInt_of_lt {n : Nat} (h : n < 2 ^ 31) : toInt n = n := by
  have h1 : n % 2 ^ 32 = n := Nat.mod_eq_of_lt (by omega)
  simp only [toInt, h1]
  rw [if_pos h]

theorem charAt_of_le (IFN : String) {k : Nat} (hk : k ≤ IFN.data.length)
    (hlen : IFN.data.length < 2 ^ 31) :
    charAt IFN ((IFN.data.length : Int) - k) = IFN.data[IFN.data.length - k]? := by
  unfold charAt
  have h1 : (((IFN.data.length : Int) - k) % 2 ^ 64).toNat = IFN.data.length - k := by
    omega
  rw [h1]

/-- For an input name of at least three characters the derivation is defined
and gives the name without a final `.ll`, or else the whole name, followed by
`.bc`. -/
theorem defaultOutputFilename_of_three_le (IFN : String) (h3 : 3 ≤ IFN.data.length)
    (hlen : IFN.data.length < 2 ^ 31) :
    defaultOutputFilename IFN =
      some (if IFN.data.drop (IFN.data.length - 3) = ['.', 'l', 'l']
        then String.mk (IFN.data.take (IFN.data.length - 3)) ++ ".bc"
        else IFN ++ ".bc") := by
  have hd : (IFN.data.drop (IFN.data.length - 3)).length = 3 := by
    rw [List.length_drop]; omega
  obtain ⟨a, b, c, habc⟩ : ∃ a b c, IFN.data.drop (IFN.data.length - 3) = [a, b, c] := by
    match hm : IFN.data.drop (IFN.data.length - 3), hd with
    | [a, b, c], _ => exact ⟨a, b, c, rfl⟩
  have g : ∀ j, IFN.data[IFN.data.length - 3 + j]? = [a, b, c][j]? := by
    intro j
    rw [← habc, List.getElem?_drop]
  have g3 : IFN.data[IFN.data.length - 3]? = some a := by simpa using g 0
  have g2 : IFN.data[IFN.data.length - 2]? = some b := by
    have := g 1
    rw [show IFN.data.length - 3 + 1 = IFN.data.length - 2 by omega] at this
    simpa using this
  have g1 : IFN.data[IFN.data.length - 1]? = some c := by
    have := g 2
    rw [show IFN.data.length - 3 + 2 = IFN.data.length - 1 by omega] at this
    simpa using this
  have c3 := charAt_of_le IFN (k := 3) h3 hlen
  have c2 := charAt_of_le IFN (k := 2) (by omega) hlen
  have c1 := charAt_of_le IFN (k := 1) (by omega) hlen
  rw [g3] at c3
  rw [g2] at c2
  rw [g1] at c1
  have hL : toInt IFN.length = (IFN.data.length : Int) := toInt_of_lt hlen
  unfold defaultOutputFilename
  simp only [hL, habc]
  unfold endsInLL
  simp only [Nat.cast_ofNat, Nat.cast_one] at c3 c2 c1
  rw [c3]
  by_cases ha : a = '.'
  · subst ha
    rw [c2]
    by_cases hb : b = 'l'
    · subst hb
      rw [c1]
      by_cases hc : c = 'l'
      · subst hc
        simp
      · have hc2 : (c == 'l') = false := by simpa using hc
        simp [hc, hc2]
    · simp [hb]
  · simp [ha]

/-! ## Theorems: the loop over the selected passes -/

theorem createPass_of_normal (argv0 : String) (target : Option TargetMachine)
    (PassInf : PassInfo) (ctor : Unit → Pass) (h : PassInf.NormalCtor = some ctor) :
    createPass argv0 target PassInf = Except.ok (some (ctor ()), []) := by
  simp [createPass, h]

theorem createPass_of_none (argv0 : String) (target : Option TargetMachine)
    (PassInf : PassInfo) (h1 : PassInf.NormalCtor = none) (h2 : PassInf.TargetCtor = none) :
    createPass argv0 target PassInf = Except.ok (none,
      [Event.cerr (argv0 ++ ": cannot create pass: " ++ PassInf.PassName ++ "\n")]) := by
  simp [createPass, h1, h2]

theorem printerFor_fromSelection (P : Pass) (PassInf : PassInfo) :
    (printerFor P PassInf).fromSelection = true := by
  unfold printerFor
  split
  · rfl
  · split <;> rfl

theorem printerFor_pass? (P : Pass) (PassInf : PassInfo) :
    (printerFor P PassInf).pass? = none := by
  unfold printerFor
  split
  · rfl
  · split <;> rfl

theorem addStages_fromSelection (c : OptConfig) (P : Option Pass) (PassInf : PassInfo) :
    ∀ s ∈ addStages c P PassInf, s.fromSelection = true := by
  intro s hs
  unfold addStages at hs
  rw [List.mem_append] at hs
  rcases hs with hs | hs
  · cases P with
    | none => simp at hs
    | some P =>
      simp only [List.mem_cons] at hs
      rcases hs with rfl | hs
      · rfl
      · split at hs
        · simp only [List.mem_singleton] at hs
          subst hs
          exact printerFor_fromSelection _ _
        · simp at hs
  · split at hs
    · simp only [List.mem_singleton] at hs
      subst hs
      rfl
    · simp at hs

theorem pass?_pass (P : Pass) : (Stage.pass P).pass? = some P := rfl

theorem pass?_PrintModulePass : Stage.PrintModulePass.pass? = none := rfl

theorem addStages_filterMap_pass? (c : OptConfig) (P : Option Pass) (PassInf : PassInfo) :
    (addStages c P PassInf).filterMap Stage.pass? = P.toList := by
  cases P with
  | none => by_cases hp : c.PrintEachXForm <;> simp [addStages, hp, pass?_PrintModulePass]
  | some P =>
    by_cases ha : c.AnalyzeOnly <;> by_cases hp : c.PrintEachXForm <;>
      simp [addStages, ha, hp, pass?_pass, pass?_PrintModulePass, printerFor_pass?,
        List.filterMap_cons]

/-- One iteration for a selection that has a context-free constructor or no
constructor at all. -/
theorem addPass_ok (c : OptConfig) (target : Option TargetMachine) (PassInf : PassInfo)
    (h : PassInf.NormalCtor.isSome = true ∨ PassInf.TargetCtor = none) :
    addPass c target PassInf = Except.ok
      (addStages c (PassInf.NormalCtor.map (fun ctor => ctor ())) PassInf,
        if PassInf.NormalCtor.isNone then
          [Event.cerr (c.argv0 ++ ": cannot create pass: " ++ PassInf.PassName ++ "\n")]
        else []) := by
  cases hn : PassInf.NormalCtor with
  | some ctor =>
    simp only [addPass, createPass_of_normal c.argv0 target PassInf ctor hn]
    rfl
  | none =>
    have ht : PassInf.TargetCtor = none := by
      rcases h with h | h
      · simp [hn] at h
      · exact h
    simp only [addPass, createPass_of_none c.argv0 target PassInf hn ht]
    rfl

/-- With no target machine allocated, an iteration that does not fail the
assertion is for a selection with a context-free constructor or no constructor
at all. -/
theorem addPass_none_ok (c : OptConfig) (PassInf : PassInfo) (r : List Stage × List Event)
    (h : addPass c none PassInf = Except.ok r) :
    PassInf.NormalCtor.isSome = true ∨ PassInf.TargetCtor = none := by
  cases hn : PassInf.NormalCtor with
  | some ctor => simp
  | none =>
    cases ht : PassInf.TargetCtor with
    | none => simp
    | some ctor => simp [addPass, createPass, hn, ht] at h

theorem selectedStages_fromSelection (c : OptConfig) (l : List PassInfo) :
    ∀ s ∈ selectedStages c l, s.fromSelection = true := by
  intro s hs
  simp only [selectedStages, List.mem_flatten, List.mem_map] at hs
  obtain ⟨_, ⟨PassInf, _, rfl⟩, hmem⟩ := hs
  exact addStages_fromSelection _ _ _ s hmem

theorem selectedStages_filterMap_pass? (c : OptConfig) (l : List PassInfo) :
    (selectedStages c l).filterMap Stage.pass? =
      l.filterMap (fun PassInf => PassInf.NormalCtor.map (fun ctor => ctor ())) := by
  induction l with
  | nil => rfl
  | cons PassInf rest ih =>
    have : selectedStages c (PassInf :: rest) =
        addStages c (PassInf.NormalCtor.map (fun ctor => ctor ())) PassInf
          ++ selectedStages c rest := by
      simp [selectedStages]
    rw [this, List.filterMap_append, addStages_filterMap_pass?, ih]
    cases hn : PassInf.NormalCtor <;> simp [List.filterMap_cons, hn]

/-- The loop over selections each with a context-free constructor or no
constructor at all: it completes, it adds the stages `selectedStages`, and
there is one diagnostic for each selection without a constructor. -/
theorem addPasses_ok (c : OptConfig) (target : Option TargetMachine) :
    ∀ (l : List PassInfo) (Passes : List Stage) (events : List Event),
    (∀ PassInf ∈ l, PassInf.NormalCtor.isSome = true ∨ PassInf.TargetCtor = none) →
    addPasses c target l Passes events = Except.ok (Passes ++ selectedStages c l,
        events ++ (l.filter (fun PassInf => PassInf.NormalCtor.isNone)).map
          (fun PassInf =>
            Event.cerr (c.argv0 ++ ": cannot create pass: " ++ PassInf.PassName ++ "\n"))) := by
  intro l
  induction l with
  | nil =>
    intro Passes events _
    simp [addPasses, selectedStages]
  | cons PassInf rest ih =>
    intro Passes events h
    have h1 := addPass_ok c target PassInf (h PassInf (List.mem_cons_self _ _))
    have hrun := ih
      (Passes ++ addStages c (PassInf.NormalCtor.map (fun ctor => ctor ())) PassInf)
      (events ++ (if PassInf.NormalCtor.isNone then
          [Event.cerr (c.argv0 ++ ": cannot create pass: " ++ PassInf.PassName ++ "\n")]
        else []))
      (fun q hq => h q (List.mem_cons_of_mem _ hq))
    simp only [addPasses, h1, hrun]
    cases hn : PassInf.NormalCtor <;> simp [List.filter_cons, hn, selectedStages]

/-- With no target machine allocated, a loop that does not fail the assertion
ran over selections each with a context-free constructor or no constructor. -/
theorem addPasses_none_ok (c : OptConfig) :
    ∀ (l : List PassInfo) (Passes : List Stage) (events : List Event)
      (r : List Stage × List Event),
    addPasses c none l Passes events = Except.ok r →
    ∀ PassInf ∈ l, PassInf.NormalCtor.isSome = true ∨ PassInf.TargetCtor = none := by
  intro l
  induction l with
  | nil => intro _ _ _ _ q hq; simp at hq
  | cons PassInf rest ih =>
    intro Passes events r h q hq
    unfold addPasses at h
    cases h1 : addPass c none PassInf with
    | error why => simp [h1] at h
    | ok r1 =>
      obtain ⟨added, diags⟩ := r1
      rw [h1] at h
      rcases List.mem_cons.1 hq with rfl | hq
      · exact addPass_none_ok c q _ h1
      · exact ih _ _ r h q hq

/-- The pass manager that `buildPasses` makes from selections each with a
context-free constructor or no constructor at all. -/
theorem buildPasses_ok (c : OptConfig) (target : Option TargetMachine) (NoOutput : Bool)
    (Out : OutStream)
    (h : ∀ PassInf ∈ c.PassList, PassInf.NormalCtor.isSome = true ∨ PassInf.TargetCtor = none) :
    ∃ added, buildPasses c target NoOutput Out = Except.ok
        (Stage.TargetData :: added
          ++ (if c.NoVerify then [] else [Stage.VerifierPass])
          ++ (if NoOutput || c.AnalyzeOnly then []
              else [Stage.WriteBytecodePass Out (Out ≠ OutStream.cout) (!c.NoCompress)]),
        (c.PassList.filter (fun PassInf => PassInf.NormalCtor.isNone)).map
          (fun PassInf =>
            Event.cerr (c.argv0 ++ ": cannot create pass: " ++ PassInf.PassName ++ "\n"))) ∧
      (∀ s ∈ added, s.fromSelection = true) ∧
      added.filterMap Stage.pass? =
        c.PassList.filterMap (fun PassInf => PassInf.NormalCtor.map (fun ctor => ctor ())) ∧
      added = selectedStages c c.PassList := by
  have hrun := addPasses_ok c target c.PassList [Stage.TargetData] [] h
  refine ⟨selectedStages c c.PassList, ?_, selectedStages_fromSelection c _,
    selectedStages_filterMap_pass? c _, rfl⟩
  simp only [buildPasses, hrun]
  cases c.NoVerify <;> cases NoOutput <;> cases c.AnalyzeOnly <;> simp

/-- With no target machine allocated, a construction of the pass manager that
does not fail the assertion ran over selections each with a context-free
constructor or no constructor at all. -/
theorem buildPasses_none_ok (c : OptConfig) (NoOutput : Bool) (Out : OutStream)
    (r : List Stage × List Event) (h : buildPasses c none NoOutput Out = Except.ok r) :
    ∀ PassInf ∈ c.PassList, PassInf.NormalCtor.isSome = true ∨ PassInf.TargetCtor = none := by
  unfold buildPasses at h
  cases h1 : addPasses c none c.PassList [Stage.TargetData] [] with
  | error a => simp [h1] at h
  | ok r1 => exact addPasses_none_ok c _ _ _ r1 h1

/-- When `main` of `opt` hands a pass manager to `Passes.run`, the module was
loaded, the output stream was chosen, and `buildPasses` made that pass
manager. -/
theorem optMain_Passes (c : OptConfig) (e : Env) (stages : List Stage)
    (h : (optMain c e).Passes = some stages) :
    ∃ M Out opened diags, e.ParseBytecodeFile c.InputFilename = ParseOutcome.module M ∧
      optOpenOutput c e = Except.ok (Out, opened) ∧
      buildPasses c none (optGate c e Out).1 Out = Except.ok (stages, diags) := by
  unfold optMain at h
  cases hp : e.ParseBytecodeFile c.InputFilename with
  | threw ex => simp [hp] at h
  | null msg => simp [hp] at h
  | module M =>
    cases ho : optOpenOutput c e with
    | error r => simp [hp, ho] at h
    | ok r1 =>
      obtain ⟨Out, opened⟩ := r1
      cases hb : buildPasses c none (optGate c e Out).1 Out with
      | error a => simp [hp, ho, hb] at h
      | ok r2 =>
        obtain ⟨Passes, diags⟩ := r2
        refine ⟨M, Out, opened, diags, rfl, rfl, ?_⟩
        simp only [hp, ho, hb] at h
        have : Passes = stages := by
          split at h <;> simpa using h
        rw [← this]
        exact hb

/-! ## Theorems: running the pipeline -/

theorem runStage_stop_none (c : OptConfig) (e : Env) (M : Module) (s : Stage)
    (hpass : ∀ P M1, ∃ M2, e.runPass P M1 = Except.ok M2)
    (hver : ∀ M1, e.verifyModule M1 = none)
    (hs : s.isWriter = false) :
    (runStage c e M s).stop = none := by
  cases s with
  | pass P =>
    obtain ⟨M2, h2⟩ := hpass P M
    simp [runStage, h2]
  | VerifierPass => simp [runStage, hver]
  | WriteBytecodePass Out d k => simp [Stage.isWriter] at hs
  | _ => rfl

/-- A run over stages without a writer, with passes that do not throw and a
verifier that accepts every module, is not cut short. -/
theorem run_stop_none (c : OptConfig) (e : Env)
    (hpass : ∀ P M1, ∃ M2, e.runPass P M1 = Except.ok M2)
    (hver : ∀ M1, e.verifyModule M1 = none) :
    ∀ (stages : List Stage) (st : RunState),
    (∀ s ∈ stages, s.isWriter = false) → st.stop = none →
    (PassManager.run c e stages st).stop = none := by
  intro stages
  induction stages with
  | nil => intro st _ h; simpa [PassManager.run] using h
  | cons s rest ih =>
    intro st hw h
    unfold PassManager.run
    rw [h]
    simp only
    apply ih
    · intro t ht
      exact hw t (List.mem_cons_of_mem _ ht)
    · exact runStage_stop_none c e st.M s hpass hver (hw s (List.mem_cons_self _ _))

theorem fromSelection_not_writer (s : Stage) (h : s.fromSelection = true) :
    s.isWriter = false := by
  cases s <;> first | rfl | simp [Stage.fromSelection, Stage.pass?, Stage.isPrinter, Stage.isPrintModule] at h

theorem fromSelection_not_verifier (s : Stage) (h : s.fromSelection = true) :
    s.isVerifier = false := by
  cases s <;> first | rfl | simp [Stage.fromSelection, Stage.pass?, Stage.isPrinter, Stage.isPrintModule] at h

/-- The pass manager that `main` of `opt` hands to `Passes.run`: the target
data, the stages of the selections, the verifier unless disabled, the writer
unless output is off or the mode is analysis-only. -/
theorem optMain_Passes_shape (c : OptConfig) (e : Env) (stages : List Stage)
    (Out : OutStream) (opened : List Event)
    (hopen : optOpenOutput c e = Except.ok (Out, opened))
    (h : (optMain c e).Passes = some stages) :
    stages = Stage.TargetData :: selectedStages c c.PassList
      ++ (if c.NoVerify then [] else [Stage.VerifierPass])
      ++ (if (optGate c e Out).1 || c.AnalyzeOnly then []
          else [Stage.WriteBytecodePass Out (Out ≠ OutStream.cout) (!c.NoCompress)]) := by
  obtain ⟨M, Out1, opened1, diags, _, ho, hb⟩ := optMain_Passes c e stages h
  rw [hopen] at ho
  simp only [Except.ok.injEq, Prod.mk.injEq] at ho
  obtain ⟨rfl, rfl⟩ := ho
  have hctor := buildPasses_none_ok c _ Out _ hb
  obtain ⟨added, hb2, _, _, hadd⟩ := buildPasses_ok c none (optGate c e Out).1 Out hctor
  rw [hb] at hb2
  simp only [Except.ok.injEq, Prod.mk.injEq] at hb2
  rw [hb2.1, hadd]

/-- The function `main` of `opt` gets as far as `Passes.run` when the module
loads, the output stream opens, and every selection has a context-free
constructor or no constructor at all. -/
theorem optMain_builds (c : OptConfig) (e : Env) (M : Module) (Out : OutStream)
    (opened : List Event)
    (hload : e.ParseBytecodeFile c.InputFilename = ParseOutcome.module M)
    (hopen : optOpenOutput c e = Except.ok (Out, opened))
    (hctor : ∀ PassInf ∈ c.PassList,
      PassInf.NormalCtor.isSome = true ∨ PassInf.TargetCtor = none) :
    ∃ stages, (optMain c e).Passes = some stages := by
  obtain ⟨added, hb, _, _, _⟩ := buildPasses_ok c none (optGate c e Out).1 Out hctor
  unfold optMain
  simp only [hload, hopen, hb]
  split <;> exact ⟨_, rfl⟩

theorem optGate_fst (c : OptConfig) (e : Env) (Out : OutStream) :
    (optGate c e Out).1 = (c.NoOutput || (!c.Force && e.isConsole Out)) := by
  unfold optGate CheckBytecodeOutputToConsole
  cases c.Force <;> cases c.NoOutput <;> cases e.isConsole Out <;> simp

theorem addStages_mem_selectedStages (c : OptConfig) (l : List PassInfo) (PassInf : PassInfo)
    (hmem : PassInf ∈ l) (s : Stage)
    (hs : s ∈ addStages c (PassInf.NormalCtor.map (fun ctor => ctor ())) PassInf) :
    s ∈ selectedStages c l := by
  simp only [selectedStages, List.mem_flatten, List.mem_map]
  exact ⟨_, ⟨PassInf, hmem, rfl⟩, hs⟩

theorem optOpenOutput_of_Passes (c : OptConfig) (e : Env) (stages : List Stage)
    (h : (optMain c e).Passes = some stages) :
    ∃ Out opened, optOpenOutput c e = Except.ok (Out, opened) := by
  obtain ⟨_, Out, opened, _, _, ho, _⟩ := optMain_Passes c e stages h
  exact ⟨Out, opened, ho⟩

theorem countP_isWriter_selected (c : OptConfig) :
    (Stage.TargetData :: selectedStages c c.PassList
      ++ (if c.NoVerify then [] else [Stage.VerifierPass])).countP Stage.isWriter = 0 := by
  rw [List.countP_eq_zero]
  intro s hs
  simp only [List.cons_append, List.mem_cons, List.mem_append] at hs
  rcases hs with rfl | hs | hs
  · simp [Stage.isWriter]
  · simp [fromSelection_not_writer s (selectedStages_fromSelection c _ s hs)]
  · split at hs
    · simp at hs
    · simp only [List.mem_singleton] at hs
      subst hs
      simp [Stage.isWriter]

theorem countP_isVerifier_selected (c : OptConfig) :
    (Stage.TargetData :: selectedStages c c.PassList).countP Stage.isVerifier = 0 := by
  rw [List.countP_eq_zero]
  intro s hs
  simp only [List.mem_cons] at hs
  rcases hs with rfl | hs
  · simp [Stage.isVerifier]
  · simp [fromSelection_not_verifier s (selectedStages_fromSelection c _ s hs)]

/-- Without `-f`, an on-disk destination that exists ends the choice of the
output stream of `llvm-as` in the `file exists` branch. -/
theorem asOpenOutput_conflict (a : AsConfig) (e : Env) (p : String)
    (hforce : a.Force = false) (hpath : asOutputPath a = some p)
    (hexists : e.ifstream p = true) :
    asOpenOutput a e = AsOutput.fileExists p := by
  unfold asOutputPath at hpath
  unfold asOpenOutput
  split at hpath
  · rename_i h1
    split at hpath
    · rename_i h2
      simp only [Option.some.injEq] at hpath
      subst hpath
      simp [h1, h2, hforce, hexists]
    · simp at hpath
  · rename_i h1
    split at hpath
    · simp at hpath
    · rename_i h2
      simp [h1, h2, hpath, hforce, hexists]

theorem asCatch_exit (a : AsConfig) (ex : Exception) :
    (asCatch a [] ex).status = Status.exit 1 ∧
    ∀ ev ∈ (asCatch a [] ex).events, ev.isOpenTrunc = false ∧ ev.isWriteBytecode = false := by
  cases ex <;> simp [asCatch, Event.isOpenTrunc, Event.isWriteBytecode]

/-- The assemble flow at an on-disk destination that exists, without `-f`. -/
theorem asMain_conflict (e : Env) (a : AsConfig) (p : String)
    (hforce : a.Force = false) (hpath : asOutputPath a = some p)
    (hexists : e.ifstream p = true) :
    (asMain a e).status = Status.exit 1 ∧
    ∀ ev ∈ (asMain a e).events, ev.isOpenTrunc = false ∧ ev.isWriteBytecode = false := by
  have ho := asOpenOutput_conflict a e p hforce hpath hexists
  unfold asMain
  cases hp : e.ParseAssemblyFile a.InputFilename with
  | threw ex => exact asCatch_exit a ex
  | null msg => simp [Event.isOpenTrunc, Event.isWriteBytecode]
  | module M =>
    simp only
    cases hv : (if (!a.DisableVerify) = true then e.verifyModule M else none) with
    | some Err => simp [Event.isOpenTrunc, Event.isWriteBytecode]
    | none =>
      simp only [ho]
      refine ⟨trivial, ?_⟩
      intro ev hev
      simp only [List.mem_append, List.mem_singleton] at hev
      rcases hev with hev | hev
      · split at hev
        · simp only [List.mem_singleton] at hev
          subst hev
          exact ⟨rfl, rfl⟩
        · simp at hev
      · subst hev
        exact ⟨rfl, rfl⟩

theorem optCatch_exit (c : OptConfig) (ex : Exception) :
    (optCatch c [] ex).status = Status.exit 1 ∧
    ∀ ev ∈ (optCatch c [] ex).events, ev.isOpenTrunc = false ∧ ev.isWriteBytecode = false := by
  cases ex <;> simp [optCatch, Event.isOpenTrunc, Event.isWriteBytecode]

/-- The optimize flow at an on-disk destination that exists, without `-f`. -/
theorem optMain_conflict (e : Env) (c : OptConfig)
    (hforce : c.Force = false) (hname : c.OutputFilename ≠ "-")
    (hexists : e.ifstream c.OutputFilename = true) :
    (optMain c e).result.status = Status.exit 1 ∧
    (∀ ev ∈ (optMain c e).result.events, ev.isOpenTrunc = false ∧ ev.isWriteBytecode = false) ∧
    (optMain c e).Passes = none := by
  have ho : optOpenOutput c e = Except.error
      ⟨Status.exit 1, [Event.cerr (fileExistsMessage c.argv0 c.OutputFilename)]⟩ := by
    simp [optOpenOutput, hname, hforce, hexists]
  unfold optMain
  cases hp : e.ParseBytecodeFile c.InputFilename with
  | threw ex => exact ⟨(optCatch_exit c ex).1, (optCatch_exit c ex).2, rfl⟩
  | null msg => simp [Event.isOpenTrunc, Event.isWriteBytecode]
  | module M => simp [ho, Event.isOpenTrunc, Event.isWriteBytecode]

/-! ## Theorems: the claims -/

/-- C1 (failing input): for the input path `a`, one character long and given
without `-o`, the derivation of the default output path reads `IFN[Len-3]`
two characters before the start of the string, so it has no defined result
and the run of `llvm-as` is undefined; the derivation does not give `a.bc`. -/
theorem C1_short_input_path_reads_outside :
    charAt "a" (toInt "a".length - 3) = none ∧
    defaultOutputFilename "a" = none ∧
    asMain (asCommand "a" "") sampleEnv = ⟨Status.undefined, []⟩ := by
  decide

/-- The output-conflict rule as the code tests it: in both flows, when force
is false and `std::ifstream` opens the on-disk destination path, the run exits
with code 1, no output file is created or truncated, no bytecode is written,
and `opt` never hands a pass manager to `Passes.run`. -/
theorem output_conflict_of_ifstream (e : Env) (c : OptConfig) (a : AsConfig) (p : String)
    (hforce : c.Force = false) (hname : c.OutputFilename ≠ "-")
    (hexists : e.ifstream c.OutputFilename = true)
    (hforcea : a.Force = false) (hpath : asOutputPath a = some p)
    (hexistsa : e.ifstream p = true) :
    ((optMain c e).result.status = Status.exit 1 ∧
      (∀ ev ∈ (optMain c e).result.events,
        ev.isOpenTrunc = false ∧ ev.isWriteBytecode = false) ∧
      (optMain c e).Passes = none) ∧
    ((asMain a e).status = Status.exit 1 ∧
      ∀ ev ∈ (asMain a e).events, ev.isOpenTrunc = false ∧ ev.isWriteBytecode = false) :=
  ⟨optMain_conflict e c hforce hname hexists, asMain_conflict e a p hforcea hpath hexistsa⟩

/-- C3 (failing input): the output path `locked.bc` is on the disk and cannot
be opened for reading, and force is false. In both flows the test
`std::ifstream(OutputFilename)` fails, so the run does not stop at `file
exists`: `llvm-as in.ll -o locked.bc` truncates the file, writes the bytecode
into it and exits 0; `llvm-as locked.ll`, whose derived path is `locked.bc`,
does the same; and `opt -o locked.bc` truncates the file before it runs its
pipeline. -/
theorem C3_unreadable_output_file_truncated :
    sampleEnv.fileExists "locked.bc" = true ∧
    sampleEnv.ifstream "locked.bc" = false ∧
    (asCommand "in.ll" "locked.bc").Force = false ∧
    asOutputPath (asCommand "in.ll" "locked.bc") = some "locked.bc" ∧
    asMain (asCommand "in.ll" "locked.bc") sampleEnv =
      ⟨Status.exit 0,
        [Event.openTrunc "locked.bc",
         Event.WriteBytecode (OutStream.ofstream "locked.bc") sampleModule true]⟩ ∧
    asOutputPath (asCommand "locked.ll" "") = some "locked.bc" ∧
    asMain (asCommand "locked.ll" "") sampleEnv =
      ⟨Status.exit 0,
        [Event.openTrunc "locked.bc", Event.RemoveFileOnSignal "locked.bc",
         Event.WriteBytecode (OutStream.ofstream "locked.bc") sampleModule true]⟩ ∧
    (optCommand [] "locked.bc" false).Force = false ∧
    optOpenOutput (optCommand [] "locked.bc" false) sampleEnv =
      Except.ok (OutStream.ofstream "locked.bc",
        [Event.openTrunc "locked.bc", Event.RemoveFileOnSignal "locked.bc"]) ∧
    (optMain (optCommand [] "locked.bc" false) sampleEnv).result.status ≠ Status.exit 1 ∧
    Event.openTrunc "locked.bc" ∈
      (optMain (optCommand [] "locked.bc" false) sampleEnv).result.events := by
  refine ⟨by decide, by decide, rfl, by decide, by decide, by decide, by decide, rfl, rfl,
    by decide, by decide⟩

/-- C4: for every ordered list of selections each of which has a context-free
constructor or no constructor at all, the construction of the pass manager
completes; the user pass instances in it are exactly the instances made by the
context-free constructors, in selection order; and the diagnostics are exactly
one `cannot create pass` line, naming the pass, for each selection with
neither constructor, in selection order. -/
theorem C4_pipeline_partial_failure (c : OptConfig) (target : Option TargetMachine)
    (NoOutput : Bool) (Out : OutStream)
    (h : ∀ PassInf ∈ c.PassList, PassInf.NormalCtor.isSome = true ∨
      (PassInf.NormalCtor = none ∧ PassInf.TargetCtor = none)) :
    ∃ Passes, buildPasses c target NoOutput Out = Except.ok (Passes,
        (c.PassList.filter (fun PassInf => PassInf.NormalCtor.isNone)).map
          (fun PassInf =>
            Event.cerr (c.argv0 ++ ": cannot create pass: " ++ PassInf.PassName ++ "\n"))) ∧
      Passes.filterMap Stage.pass? =
        c.PassList.filterMap (fun PassInf => PassInf.NormalCtor.map (fun ctor => ctor ())) := by
  have h1 : ∀ PassInf ∈ c.PassList,
      PassInf.NormalCtor.isSome = true ∨ PassInf.TargetCtor = none := by
    intro PassInf hmem
    rcases h PassInf hmem with hn | ⟨_, ht⟩
    · exact Or.inl hn
    · exact Or.inr ht
  obtain ⟨added, hb, _, hpass, _⟩ := buildPasses_ok c target NoOutput Out h1
  refine ⟨_, hb, ?_⟩
  rw [List.filterMap_append, List.filterMap_append, List.filterMap_cons]
  have e1 : Stage.TargetData.pass? = none := rfl
  have e2 : List.filterMap Stage.pass? (if c.NoVerify = true then [] else [Stage.VerifierPass])
      = [] := by
    split <;> rfl
  have e3 : List.filterMap Stage.pass?
      (if (NoOutput || c.AnalyzeOnly) = true then []
        else [Stage.WriteBytecodePass Out (Out ≠ OutStream.cout) (!c.NoCompress)]) = [] := by
    split <;> rfl
  simp only [e1, e2, e3, hpass, List.append_nil]

/-- C4 (witness): the selections `stripInfo`, `bareInfo`, `domInfo`: the pass
without a constructor is between two that can be constructed. -/
theorem C4_pipeline_partial_failure_witness :
    ∃ Passes, buildPasses (optCommand [stripInfo, bareInfo, domInfo] "-" false) none false
        OutStream.cout = Except.ok (Passes,
        ((optCommand [stripInfo, bareInfo, domInfo] "-" false).PassList.filter
            (fun PassInf => PassInf.NormalCtor.isNone)).map
          (fun PassInf =>
            Event.cerr ((optCommand [stripInfo, bareInfo, domInfo] "-" false).argv0
              ++ ": cannot create pass: " ++ PassInf.PassName ++ "\n"))) ∧
      Passes.filterMap Stage.pass? =
        (optCommand [stripInfo, bareInfo, domInfo] "-" false).PassList.filterMap
          (fun PassInf => PassInf.NormalCtor.map (fun ctor => ctor ())) :=
  C4_pipeline_partial_failure (optCommand [stripInfo, bareInfo, domInfo] "-" false) none false
    OutStream.cout
    (by
      intro PassInf h
      simp only [optCommand, List.mem_cons, List.mem_singleton, List.not_mem_nil, or_false] at h
      rcases h with rfl | rfl | rfl
      · exact Or.inl rfl
      · exact Or.inr ⟨rfl, rfl⟩
      · exact Or.inl rfl)

/-- C5 (failing input): `opt` with the one selection `lowerInfo`, which has a
target constructor and no context-free constructor. The variable `target` is
never assigned, so the pass is not constructed: `assert(target.get() && ...)`
fails after the console warning, the process is aborted, and no pass manager
is run. -/
theorem C5_target_machine_never_allocated :
    lowerInfo.NormalCtor.isNone = true ∧ lowerInfo.TargetCtor.isSome = true ∧
    (optMain (optCommand [lowerInfo] "-" false) sampleEnv).result =
      ⟨Status.abort "Could not allocate target machine!",
        [Event.cerr sampleEnv.consoleWarning]⟩ ∧
    (optMain (optCommand [lowerInfo] "-" false) sampleEnv).Passes.isNone = true := by
  decide

/-- C7: whenever `opt` builds its pipeline, the pipeline holds at most one
serializer stage; it holds none when analysis-only mode is active, when output
is disabled, or when the destination is terminal-attached and force is false;
in every other configuration it holds exactly one, and that is the last stage
of the pipeline. -/
theorem C7_serializer_placement (c : OptConfig) (e : Env) (stages : List Stage)
    (Out : OutStream) (opened : List Event)
    (hopen : optOpenOutput c e = Except.ok (Out, opened))
    (hP : (optMain c e).Passes = some stages) :
    stages.countP Stage.isWriter ≤ 1 ∧
    ((c.AnalyzeOnly = true ∨ c.NoOutput = true ∨ (c.Force = false ∧ e.isConsole Out = true)) →
      stages.countP Stage.isWriter = 0) ∧
    (¬(c.AnalyzeOnly = true ∨ c.NoOutput = true ∨ (c.Force = false ∧ e.isConsole Out = true)) →
      stages.countP Stage.isWriter = 1 ∧
      ∃ front, stages = front ++
        [Stage.WriteBytecodePass Out (Out ≠ OutStream.cout) (!c.NoCompress)]) := by
  have hshape := optMain_Passes_shape c e stages Out opened hopen hP
  have h0 := countP_isWriter_selected c
  rw [optGate_fst] at hshape
  by_cases hs : c.AnalyzeOnly = true ∨ c.NoOutput = true ∨
      (c.Force = false ∧ e.isConsole Out = true)
  · have hoff : ((c.NoOutput || (!c.Force && e.isConsole Out)) || c.AnalyzeOnly) = true := by
      rcases hs with h | h | ⟨h1, h2⟩
      · simp [h]
      · simp [h]
      · simp [h1, h2]
    rw [if_pos hoff, List.append_nil] at hshape
    have hz : stages.countP Stage.isWriter = 0 := by rw [hshape]; exact h0
    exact ⟨by omega, fun _ => hz, fun hn => absurd hs hn⟩
  · have hon : ¬((c.NoOutput || (!c.Force && e.isConsole Out)) || c.AnalyzeOnly) = true := by
      intro h
      apply hs
      cases ha : c.AnalyzeOnly
      · cases hn : c.NoOutput
        · cases hf : c.Force
          · cases hc : e.isConsole Out
            · simp [ha, hn, hf, hc] at h
            · exact Or.inr (Or.inr ⟨rfl, rfl⟩)
          · simp [ha, hn, hf] at h
        · exact Or.inr (Or.inl rfl)
      · exact Or.inl rfl
    rw [if_neg hon] at hshape
    have h1 : stages.countP Stage.isWriter = 1 := by
      rw [hshape, List.countP_append, h0]
      simp [Stage.isWriter]
    exact ⟨by omega, fun h => absurd h hs, fun _ => ⟨h1, _, hshape⟩⟩

/-- C7 (witness): `opt -o new.bc` with the selection `stripInfo`, where
`new.bc` does not exist: one writer stage, the last one. -/
theorem C7_serializer_placement_witness :
    [Stage.TargetData, Stage.pass stripPass, Stage.VerifierPass,
      Stage.WriteBytecodePass (OutStream.ofstream "new.bc") true true].countP Stage.isWriter
      ≤ 1 ∧
    (((optCommand [stripInfo] "new.bc" false).AnalyzeOnly = true ∨
        (optCommand [stripInfo] "new.bc" false).NoOutput = true ∨
        ((optCommand [stripInfo] "new.bc" false).Force = false ∧
          sampleEnv.isConsole (OutStream.ofstream "new.bc") = true)) →
      [Stage.TargetData, Stage.pass stripPass, Stage.VerifierPass,
        Stage.WriteBytecodePass (OutStream.ofstream "new.bc") true true].countP Stage.isWriter
        = 0) ∧
    (¬((optCommand [stripInfo] "new.bc" false).AnalyzeOnly = true ∨
        (optCommand [stripInfo] "new.bc" false).NoOutput = true ∨
        ((optCommand [stripInfo] "new.bc" false).Force = false ∧
          sampleEnv.isConsole (OutStream.ofstream "new.bc") = true)) →
      [Stage.TargetData, Stage.pass stripPass, Stage.VerifierPass,
        Stage.WriteBytecodePass (OutStream.ofstream "new.bc") true true].countP Stage.isWriter
        = 1 ∧
      ∃ front, [Stage.TargetData, Stage.pass stripPass, Stage.VerifierPass,
          Stage.WriteBytecodePass (OutStream.ofstream "new.bc") true true] = front ++
        [Stage.WriteBytecodePass (OutStream.ofstream "new.bc")
          (OutStream.ofstream "new.bc" ≠ OutStream.cout)
          (!(optCommand [stripInfo] "new.bc" false).NoCompress)]) :=
  C7_serializer_placement (optCommand [stripInfo] "new.bc" false) sampleEnv
    [Stage.TargetData, Stage.pass stripPass, Stage.VerifierPass,
      Stage.WriteBytecodePass (OutStream.ofstream "new.bc") true true]
    (OutStream.ofstream "new.bc")
    [Event.openTrunc "new.bc", Event.RemoveFileOnSignal "new.bc"] rfl rfl

/-- C8: whenever `opt` builds its pipeline with verification not disabled,
the pipeline holds exactly one verification stage; every stage before it is
neither a verifier nor a serializer, every stage after it is a serializer, so
every stage made from the selections (pass instance, printer, dump) comes
before it. With verification disabled the pipeline holds no verification
stage. -/
theorem C8_verifier_placement (c : OptConfig) (e : Env) (stages : List Stage)
    (hP : (optMain c e).Passes = some stages) :
    (c.NoVerify = false →
      stages.countP Stage.isVerifier = 1 ∧
      ∃ pre post, stages = pre ++ Stage.VerifierPass :: post ∧
        (∀ s ∈ pre, s.isVerifier = false ∧ s.isWriter = false) ∧
        (∀ s ∈ post, s.isWriter = true ∧ s.isVerifier = false ∧ s.fromSelection = false)) ∧
    (c.NoVerify = true → stages.countP Stage.isVerifier = 0) := by
  obtain ⟨Out, opened, ho⟩ := optOpenOutput_of_Passes c e stages hP
  have hshape := optMain_Passes_shape c e stages Out opened ho hP
  have h0 := countP_isVerifier_selected c
  have hw : ∀ s ∈ (if ((optGate c e Out).1 || c.AnalyzeOnly) = true then []
        else [Stage.WriteBytecodePass Out (Out ≠ OutStream.cout) (!c.NoCompress)]),
      s.isWriter = true ∧ s.isVerifier = false ∧ s.fromSelection = false := by
    intro s hs
    split at hs
    · simp at hs
    · simp only [List.mem_singleton] at hs
      subst hs
      exact ⟨rfl, rfl, rfl⟩
  have hwc : (if ((optGate c e Out).1 || c.AnalyzeOnly) = true then []
        else [Stage.WriteBytecodePass Out (Out ≠ OutStream.cout) (!c.NoCompress)]).countP
      Stage.isVerifier = 0 := by
    rw [List.countP_eq_zero]
    intro s hs
    simp [(hw s hs).2.1]
  constructor
  · intro hv
    simp only [hv, Bool.false_eq_true, if_false] at hshape
    constructor
    · rw [hshape, List.countP_append, List.countP_append, hwc, h0]
      rfl
    · refine ⟨Stage.TargetData :: selectedStages c c.PassList, _, ?_, ?_, hw⟩
      · rw [hshape]
        simp
      · intro s hs
        simp only [List.mem_cons] at hs
        rcases hs with rfl | hs
        · exact ⟨rfl, rfl⟩
        · have hf := selectedStages_fromSelection c _ s hs
          exact ⟨fromSelection_not_verifier s hf, fromSelection_not_writer s hf⟩
  · intro hv
    simp only [hv, if_true, List.append_nil] at hshape
    rw [hshape, List.countP_append, hwc, h0]

/-- C8 (witness): `opt -o new.bc` with the selections `stripInfo` and
`domInfo`, where `new.bc` does not exist. -/
theorem C8_verifier_placement_witness :
    ((optCommand [stripInfo, domInfo] "new.bc" false).NoVerify = false →
      [Stage.TargetData, Stage.pass stripPass, Stage.pass ⟨"domset", false, true⟩,
        Stage.VerifierPass,
        Stage.WriteBytecodePass (OutStream.ofstream "new.bc") true true].countP
          Stage.isVerifier = 1 ∧
      ∃ pre post, [Stage.TargetData, Stage.pass stripPass,
          Stage.pass ⟨"domset", false, true⟩, Stage.VerifierPass,
          Stage.WriteBytecodePass (OutStream.ofstream "new.bc") true true]
          = pre ++ Stage.VerifierPass :: post ∧
        (∀ s ∈ pre, s.isVerifier = false ∧ s.isWriter = false) ∧
        (∀ s ∈ post, s.isWriter = true ∧ s.isVerifier = false ∧ s.fromSelection = false)) ∧
    ((optCommand [stripInfo, domInfo] "new.bc" false).NoVerify = true →
      [Stage.TargetData, Stage.pass stripPass, Stage.pass ⟨"domset", false, true⟩,
        Stage.VerifierPass,
        Stage.WriteBytecodePass (OutStream.ofstream "new.bc") true true].countP
          Stage.isVerifier = 0) :=
  C8_verifier_placement (optCommand [stripInfo, domInfo] "new.bc" false) sampleEnv
    [Stage.TargetData, Stage.pass stripPass, Stage.pass ⟨"domset", false, true⟩,
      Stage.VerifierPass, Stage.WriteBytecodePass (OutStream.ofstream "new.bc") true true]
    rfl

/-- C9 (failing input): `llvm-as in.ll -o out.bc`, where `out.bc` does not
exist: the file is created and the bytecode is written to it, and its path is
never registered with `RemoveFileOnSignal`. The two sibling paths do register
the path right after the creation and before any write: `llvm-as in.ll` with
the derived path `in.bc`, and `opt -o out.bc`, whose writer stage then runs on
a stream wrapper that no longer lives. -/
theorem C9_explicit_output_path_not_registered :
    asMain (asCommand "in.ll" "out.bc") sampleEnv =
      ⟨Status.exit 0,
        [Event.openTrunc "out.bc",
         Event.WriteBytecode (OutStream.ofstream "out.bc") sampleModule true]⟩ ∧
    asMain (asCommand "in.ll" "") sampleEnv =
      ⟨Status.exit 0,
        [Event.openTrunc "in.bc", Event.RemoveFileOnSignal "in.bc",
         Event.WriteBytecode (OutStream.ofstream "in.bc") sampleModule true]⟩ ∧
    (optMain (optCommand [] "out.bc" false) sampleEnv).result =
      ⟨Status.undefined,
        [Event.openTrunc "out.bc", Event.RemoveFileOnSignal "out.bc"]⟩ := by
  decide

/-- C10 (counterexample): with quiet set, the module printer performs no
lookup of the analysis at all, while the function printer and the basic-block
printer still write the analysis result to the output stream. -/
theorem C10_quiet_printers_counterexample :
    (ModulePassPrinter.runOnModule true domInfo sampleModule).2 = [] ∧
    (ModulePassPrinter.runOnModule false domInfo sampleModule).2 =
      [Event.cout "Printing analysis \x27Dominator Set Construction\x27:\n",
       Event.getAnalysisID "Dominator Set Construction",
       Event.printAnalysis "Dominator Set Construction" sampleModule] ∧
    (FunctionPassPrinter.runOnFunction true domInfo sampleModule
        ⟨"main", [⟨"entry", ["ret void"]⟩]⟩).2 =
      [Event.getAnalysisID "Dominator Set Construction",
       Event.printAnalysis "Dominator Set Construction" sampleModule] ∧
    (BasicBlockPassPrinter.runOnBasicBlock true domInfo sampleModule
        ⟨"entry", ["ret void"]⟩).2 =
      [Event.getAnalysisID "Dominator Set Construction",
       Event.printAnalysis "Dominator Set Construction" sampleModule] := by
  decide

/-- C10 (amended): each of the three printers reports that no mutation was
performed, with quiet set or not, and writes no header when quiet is set. With
quiet set the function printer and the basic-block printer still look the
analysis up and still write its result, exactly as they do after the header
when quiet is not set. With quiet not set the module printer writes the
header, looks the analysis up and writes its result. -/
theorem C10_quiet_printers (PassToPrint : PassInfo) (M : Module) (F : Function)
    (BB : BasicBlock) :
    (∀ Quiet : Bool,
      (ModulePassPrinter.runOnModule Quiet PassToPrint M).1 = false ∧
      (FunctionPassPrinter.runOnFunction Quiet PassToPrint M F).1 = false ∧
      (BasicBlockPassPrinter.runOnBasicBlock Quiet PassToPrint M BB).1 = false) ∧
    (∀ text,
      Event.cout text ∉ (ModulePassPrinter.runOnModule true PassToPrint M).2 ∧
      Event.cout text ∉ (FunctionPassPrinter.runOnFunction true PassToPrint M F).2 ∧
      Event.cout text ∉ (BasicBlockPassPrinter.runOnBasicBlock true PassToPrint M BB).2) ∧
    ((FunctionPassPrinter.runOnFunction true PassToPrint M F).2 =
        [Event.getAnalysisID PassToPrint.PassName,
         Event.printAnalysis PassToPrint.PassName M] ∧
      (FunctionPassPrinter.runOnFunction false PassToPrint M F).2 =
        Event.cout ("Printing analysis \x27" ++ PassToPrint.PassName
          ++ "\x27 for function \x27" ++ F.Name ++ "\x27:\n")
        :: (FunctionPassPrinter.runOnFunction true PassToPrint M F).2) ∧
    ((BasicBlockPassPrinter.runOnBasicBlock true PassToPrint M BB).2 =
        [Event.getAnalysisID PassToPrint.PassName,
         Event.printAnalysis PassToPrint.PassName M] ∧
      (BasicBlockPassPrinter.runOnBasicBlock false PassToPrint M BB).2 =
        Event.cout ("Printing Analysis info for BasicBlock \x27" ++ BB.Name
          ++ "\x27: Pass " ++ PassToPrint.PassName ++ ":\n")
        :: (BasicBlockPassPrinter.runOnBasicBlock true PassToPrint M BB).2) ∧
    (ModulePassPrinter.runOnModule false PassToPrint M).2 =
      [Event.cout ("Printing analysis \x27" ++ PassToPrint.PassName ++ "\x27:\n"),
       Event.getAnalysisID PassToPrint.PassName,
       Event.printAnalysis PassToPrint.PassName M] := by
  refine ⟨fun _ => ⟨rfl, rfl, rfl⟩, fun text => ⟨?_, ?_, ?_⟩, ⟨rfl, rfl⟩, ⟨rfl, rfl⟩, rfl⟩
  · simp [ModulePassPrinter.runOnModule]
  · simp [FunctionPassPrinter.runOnFunction]
  · simp [BasicBlockPassPrinter.runOnBasicBlock]

/-- C11 (counterexample): with print-after-each active, `opt -analyze` with the
one selection `domInfo` appends two instances, the pass and its printer, and
one dump stage only, after the printer, so the pass is not followed by a dump;
and `opt` with the one selection `bareInfo`, whose construction fails, appends
no instance and still one dump stage. -/
theorem C11_print_after_each_counterexample :
    (optPrintCommand [domInfo] true).PrintEachXForm = true ∧
    (optMain (optPrintCommand [domInfo] true) sampleEnv).Passes.map
        (fun stages => stages.map (fun s => s.pass?.isSome || s.isPrinter))
      = some [false, true, true, false, false] ∧
    (optMain (optPrintCommand [domInfo] true) sampleEnv).Passes.map
        (fun stages => stages.map Stage.isPrintModule)
      = some [false, false, false, true, false] ∧
    (optPrintCommand [bareInfo] false).PrintEachXForm = true ∧
    (optMain (optPrintCommand [bareInfo] false) sampleEnv).Passes.map
        (fun stages => stages.map (fun s => s.pass?.isSome || s.isPrinter))
      = some [false, false, false] ∧
    (optMain (optPrintCommand [bareInfo] false) sampleEnv).Passes.map
        (fun stages => stages.map Stage.isPrintModule)
      = some [false, true, false] := by
  decide

/-- C11 (amended): when print-after-each is active and `opt` builds its
pipeline, the stages after the target data are one block for each selection,
in selection order, followed by stages none of which is a dump; and the block
of every selection whose instance is constructed is the instance, then its
printer when analysis-only mode is active, then exactly one dump stage: the
dump stands immediately after the last stage appended for the selection. -/
theorem C11_print_after_each (c : OptConfig) (e : Env) (stages : List Stage)
    (hprint : c.PrintEachXForm = true)
    (hP : (optMain c e).Passes = some stages) :
    ∃ blocks rest, stages = Stage.TargetData :: blocks.flatten ++ rest ∧
      (∀ s ∈ rest, s.isPrintModule = false) ∧
      List.Forall₂
        (fun PassInf block => ∀ ctor, PassInf.NormalCtor = some ctor →
          block = Stage.pass (ctor ())
            :: ((if c.AnalyzeOnly then [printerFor (ctor ()) PassInf] else [])
              ++ [Stage.PrintModulePass]))
        c.PassList blocks := by
  obtain ⟨Out, opened, ho⟩ := optOpenOutput_of_Passes c e stages hP
  have hshape := optMain_Passes_shape c e stages Out opened ho hP
  refine ⟨c.PassList.map (fun PassInf =>
      addStages c (PassInf.NormalCtor.map (fun ctor => ctor ())) PassInf),
    (if c.NoVerify then [] else [Stage.VerifierPass])
      ++ (if (optGate c e Out).1 || c.AnalyzeOnly then []
          else [Stage.WriteBytecodePass Out (Out ≠ OutStream.cout) (!c.NoCompress)]),
    ?_, ?_, ?_⟩
  · rw [hshape, selectedStages, List.append_assoc]
  · intro s hs
    rw [List.mem_append] at hs
    rcases hs with hs | hs
    · split at hs
      · simp at hs
      · simp only [List.mem_singleton] at hs
        subst hs
        rfl
    · split at hs
      · simp at hs
      · simp only [List.mem_singleton] at hs
        subst hs
        rfl
  · rw [List.forall₂_map_right_iff, List.forall₂_same]
    intro PassInf _ ctor hn
    simp [addStages, hn, hprint]

/-- C11 (witness): `opt -p -analyze` with the selections `domInfo`, `bareInfo`
and `stripInfo`. -/
theorem C11_print_after_each_witness :
    ∃ blocks rest,
      [Stage.TargetData,
        Stage.pass ⟨"domset", false, true⟩, Stage.FunctionPassPrinter domInfo,
        Stage.PrintModulePass,
        Stage.PrintModulePass,
        Stage.pass stripPass, Stage.ModulePassPrinter stripInfo, Stage.PrintModulePass,
        Stage.VerifierPass] = Stage.TargetData :: blocks.flatten ++ rest ∧
      (∀ s ∈ rest, s.isPrintModule = false) ∧
      List.Forall₂
        (fun PassInf block => ∀ ctor, PassInf.NormalCtor = some ctor →
          block = Stage.pass (ctor ())
            :: ((if (optPrintCommand [domInfo, bareInfo, stripInfo] true).AnalyzeOnly
                then [printerFor (ctor ()) PassInf] else [])
              ++ [Stage.PrintModulePass]))
        (optPrintCommand [domInfo, bareInfo, stripInfo] true).PassList blocks :=
  C11_print_after_each (optPrintCommand [domInfo, bareInfo, stripInfo] true) sampleEnv
    [Stage.TargetData,
      Stage.pass ⟨"domset", false, true⟩, Stage.FunctionPassPrinter domInfo,
      Stage.PrintModulePass,
      Stage.PrintModulePass,
      Stage.pass stripPass, Stage.ModulePassPrinter stripInfo, Stage.PrintModulePass,
      Stage.VerifierPass]
    rfl rfl

end LLVMTools
